import Mathlib

/-!
# Fraud Shield — verification of the validation / metrics / reporting core

Shallow embedding of the fraud-shield repository (`utils.py`, `flask_app.py`)
and proofs about it.  DataFrames are modelled as lists of named columns whose
cells are exact rationals, non-numeric strings, or missing markers (NaN).
Floating-point quantities computed by the code (`fraud_rate`, the `0.8`
column-fraction threshold) are modelled as exact rationals; for every
comparison the code performs, binary64 evaluation and exact evaluation agree
on all representable inputs of realistic size, and the one place where the
float value is *not* a real number at all — the unguarded `0/0` division for
an empty prediction array, which numpy turns into NaN — is modelled
explicitly by `Option ℚ` with `none` standing for NaN.
-/

namespace FraudShield

/-- A single cell of a pandas DataFrame: a numeric value, a non-numeric
string, or a missing value (NaN). -/
inductive Cell where
  | num (q : ℚ)
  | str (s : String)
  | na
deriving DecidableEq, Repr

/-- `true` exactly on numeric cells. -/
def Cell.isNum : Cell → Bool
  | .num _ => true
  | _ => false

/-- A named DataFrame column. -/
structure Column where
  name : String
  cells : List Cell
deriving DecidableEq, Repr

/-- `pd.api.types.is_numeric_dtype`: a pandas column has a numeric dtype
exactly when it stores no (non-numeric) string — any string cell forces
object dtype.  An all-numeric or all-NaN (float) column is numeric. -/
def Column.is_numeric_dtype (c : Column) : Bool :=
  c.cells.all fun x => match x with
    | .str _ => false
    | _ => true

/-- A DataFrame: an ordered list of named columns. -/
structure DataFrame where
  cols : List Column
deriving DecidableEq, Repr

/-- `data.columns`: the list of column names. -/
def DataFrame.columns (d : DataFrame) : List String := d.cols.map (·.name)

/-- The 28 canonical feature names `V1 .. V28`
(`[f"V{i}" for i in range(1, 29)]`). -/
def expected_features : List String :=
  (List.range 28).map fun i => "V" ++ toString (i + 1)

/-- Python `repr` of a string (used in the missing-features message). -/
def pyStrRepr (s : String) : String := "\x27" ++ s ++ "\x27"

/-- Python `repr` of a list of strings. -/
def pyListRepr (l : List String) : String :=
  "[" ++ String.intercalate ", " (l.map pyStrRepr) ++ "]"

/-- `validate_csv_data` (utils.py lines 13–39).  Returns
`(is_valid, message)`.  The `0.8` numeric-fraction threshold is written
`* (8/10)` over exact rationals: for every realizable column count `n`,
the double `n * 0.8` compares to an integer exactly as `4 * n / 5` does
(the relative error of binary64 `0.8` is below half an ulp of any integer
product in range). -/
def validate_csv_data (data : DataFrame) : Bool × String :=
  if data.cols.length < 5 then
    (false, "CSV must contain at least 5 columns")
  else
    let missing_features :=
      expected_features.filter fun col => !(data.columns.contains col)
    if missing_features.length > 20 then
      (false, "Missing many expected feature columns: " ++
        pyListRepr (missing_features.take 5) ++ "...")
    else
      let numeric_columns := data.cols.filter (·.is_numeric_dtype)
      if ((numeric_columns.length : ℚ) < (data.cols.length : ℚ) * (8 / 10)) then
        (false, "Most columns should be numeric")
      else
        (true, "Data validation passed")

/-- The optional probability statistics of the metrics dictionary
(`avg_fraud_probability`, `max_fraud_probability`, `min_fraud_probability`). -/
structure ProbStats where
  avg_fraud_probability : ℚ
  max_fraud_probability : ℚ
  min_fraud_probability : ℚ
deriving DecidableEq, Repr

/-- The metrics dictionary returned by `calculate_risk_metrics`.
`fraud_rate` is `none` when the numpy division `(fraud_count / total) * 100`
was `0/0` (empty input), which numpy evaluates to NaN with a
`RuntimeWarning` instead of raising. -/
structure RiskMetrics where
  total_transactions : ℕ
  legitimate_count : ℕ
  fraud_count : ℕ
  fraud_rate : Option ℚ
  risk_level : String
  risk_icon : String
  probStats : Option ProbStats
deriving DecidableEq, Repr

/-- IEEE comparison `x > y` where `x` may be NaN (modelled by `none`):
every comparison against NaN is false. -/
def nanGT (x : Option ℚ) (y : ℚ) : Bool :=
  match x with
  | none => false
  | some q => decide (y < q)

/-- `calculate_risk_metrics` (utils.py lines 72–113).  `predictions` is the
model's output array, `probabilities` the optional fraud-probability array.
`np.sum(predictions == 1)` is a count; the division by `total_transactions`
yields NaN (`none`) when the input is empty; `np.mean` is sum/length and
`np.max`/`np.min` raise `ValueError` on a zero-size array, modelled by
`Except.error`. -/
def calculate_risk_metrics (predictions : List ℤ)
    (probabilities : Option (List ℚ)) : Except String RiskMetrics :=
  let total_transactions := predictions.length
  let fraud_count := predictions.countP fun p => decide (p = 1)
  let legitimate_count := predictions.countP fun p => decide (p = 0)
  let fraud_rate : Option ℚ :=
    if total_transactions = 0 then none
    else some (((fraud_count : ℚ) / (total_transactions : ℚ)) * 100)
  let levelIcon :=
    if nanGT fraud_rate 5 then ("HIGH", "⚠️")
    else if nanGT fraud_rate 2 then ("MEDIUM", "⚡")
    else ("LOW", "✅")
  match probabilities with
  | none =>
      .ok ⟨total_transactions, legitimate_count, fraud_count, fraud_rate,
        levelIcon.1, levelIcon.2, none⟩
  | some [] =>
      .error "zero-size array to reduction operation maximum which has no identity"
  | some (p :: ps) =>
      .ok ⟨total_transactions, legitimate_count, fraud_count, fraud_rate,
        levelIcon.1, levelIcon.2,
        some ⟨((p :: ps).sum) / ((p :: ps).length : ℚ),
              ps.foldl max p, ps.foldl min p⟩⟩

/-- C1.  For the empty predictions list, `calculate_risk_metrics` returns a
defined record with `total_transactions = 0` and `risk_level = LOW` without
raising — but the division `fraud_count / total` is NOT guarded: numpy
evaluates `0/0` to NaN (here `none`), so `fraud_rate` is NaN, not the `0`
the spec requires.  This theorem records the actual behaviour at the
failing input. -/
theorem empty_predictions_metrics :
    calculate_risk_metrics [] none =
      .ok ⟨0, 0, 0, none, "LOW", "✅", none⟩ := rfl

/-- C2.  For every nonempty predictions list, the risk level is HIGH iff
`fraud_rate > 5`, MEDIUM iff `2 < fraud_rate ≤ 5`, LOW iff
`fraud_rate ≤ 2` (strict inequalities at both thresholds); moreover
`[0]*98 ++ [1]*2` yields rate 2 and LOW, and `[0,0,0,0,1]` yields rate 20
and HIGH. -/
theorem risk_level_iff_thresholds (preds : List ℤ) (m : RiskMetrics)
    (hne : preds ≠ [])
    (hm : calculate_risk_metrics preds none = .ok m) :
    (∃ r : ℚ, m.fraud_rate = some r ∧
      (m.risk_level = "HIGH" ↔ 5 < r) ∧
      (m.risk_level = "MEDIUM" ↔ 2 < r ∧ r ≤ 5) ∧
      (m.risk_level = "LOW" ↔ r ≤ 2)) ∧
    (∃ m2, calculate_risk_metrics
        (List.replicate 98 0 ++ List.replicate 2 1) none = .ok m2 ∧
        m2.fraud_rate = some 2 ∧ m2.risk_level = "LOW") ∧
    (∃ m3, calculate_risk_metrics [0, 0, 0, 0, 1] none = .ok m3 ∧
        m3.fraud_rate = some 20 ∧ m3.risk_level = "HIGH") := by
  have hlen : preds.length ≠ 0 := fun h => hne (List.length_eq_zero.mp h)
  refine ⟨?_,
    ⟨_, rfl, by norm_num [calculate_risk_metrics, nanGT, List.countP_replicate],
      by norm_num [calculate_risk_metrics, nanGT, List.countP_replicate]⟩,
    ⟨_, rfl, by norm_num [calculate_risk_metrics, nanGT],
      by norm_num [calculate_risk_metrics, nanGT]⟩⟩
  set r : ℚ := ((preds.countP fun p => decide (p = 1) : ℕ) : ℚ) /
      ((preds.length : ℕ) : ℚ) * 100 with hr
  have hm' : m = ⟨preds.length, preds.countP (fun p => decide (p = 0)),
      preds.countP (fun p => decide (p = 1)), some r,
      (if nanGT (some r) 5 then ("HIGH", "⚠️")
       else if nanGT (some r) 2 then ("MEDIUM", "⚡") else ("LOW", "✅")).1,
      (if nanGT (some r) 5 then ("HIGH", "⚠️")
       else if nanGT (some r) 2 then ("MEDIUM", "⚡") else ("LOW", "✅")).2,
      none⟩ := by
    rw [calculate_risk_metrics] at hm
    simp only [if_neg hlen, Except.ok.injEq] at hm
    rw [← hm, hr]
  refine ⟨r, ?_⟩
  rw [hm']
  by_cases h5 : (5 : ℚ) < r
  · have h2 : (2 : ℚ) < r := lt_trans (by norm_num) h5
    simp [nanGT, h5, h2, not_le.mpr h2]
  · by_cases h2 : (2 : ℚ) < r
    · simp [nanGT, h5, h2, not_le.mpr h2, not_lt.mp h5]
    · simp [nanGT, h5, h2, not_lt.mp h2]

/-- Witness for `risk_level_iff_thresholds` at `[0,0,0,0,1]`. -/
theorem risk_level_iff_thresholds_witness :
    ∃ m, calculate_risk_metrics [0, 0, 0, 0, 1] none = Except.ok m ∧
      (∃ r : ℚ, m.fraud_rate = some r ∧
        (m.risk_level = "HIGH" ↔ 5 < r) ∧
        (m.risk_level = "MEDIUM" ↔ 2 < r ∧ r ≤ 5) ∧
        (m.risk_level = "LOW" ↔ r ≤ 2)) :=
  ⟨_, rfl, (risk_level_iff_thresholds [0, 0, 0, 0, 1] _ (by decide) rfl).1⟩

/-- C5.  For every predictions list of 0/1 entries,
`fraud_count + legitimate_count = total_transactions`, where the total is
the length, `fraud_count` counts the 1-entries and `legitimate_count` the
0-entries. -/
theorem fraud_plus_legitimate_eq_total (preds : List ℤ) (m : RiskMetrics)
    (hb : ∀ p ∈ preds, p = 0 ∨ p = 1)
    (hm : calculate_risk_metrics preds none = .ok m) :
    m.fraud_count + m.legitimate_count = m.total_transactions ∧
    m.total_transactions = preds.length ∧
    m.fraud_count = preds.countP (fun p => decide (p = 1)) ∧
    m.legitimate_count = preds.countP (fun p => decide (p = 0)) := by
  have hm' : m.fraud_count = preds.countP (fun p => decide (p = 1)) ∧
      m.legitimate_count = preds.countP (fun p => decide (p = 0)) ∧
      m.total_transactions = preds.length := by
    rw [calculate_risk_metrics] at hm
    simp only [Except.ok.injEq] at hm
    rw [← hm]
    exact ⟨rfl, rfl, rfl⟩
  obtain ⟨h1, h0, ht⟩ := hm'
  refine ⟨?_, ht, h1, h0⟩
  rw [h1, h0, ht]
  clear h1 h0 ht hm
  induction preds with
  | nil => rfl
  | cons a t ih =>
    have ht' := fun p hp => hb p (List.mem_cons_of_mem _ hp)
    have ih' := ih ht'
    rcases hb a (List.mem_cons_self a t) with h | h <;> subst h <;>
      simp only [List.countP_cons, List.length_cons] <;> simp <;> omega

/-- Witness for `fraud_plus_legitimate_eq_total` at `[0, 1, 1]`. -/
theorem fraud_plus_legitimate_eq_total_witness :
    ∃ m, calculate_risk_metrics [0, 1, 1] none = Except.ok m ∧
      m.fraud_count + m.legitimate_count = m.total_transactions :=
  ⟨_, rfl, (fraud_plus_legitimate_eq_total [0, 1, 1] _ (by decide) rfl).1⟩

/-- C4.  A table with at least 5 columns, at least 9 of the 28 canonical
names `V1..V28` present, and at least 80% numeric-typed columns passes
validation; and the three failure rules apply in their stated order:
column count first, then missing canonical names, then the numeric
fraction. -/
theorem validate_csv_accepts_wellformed (data : DataFrame)
    (h5 : 5 ≤ data.cols.length)
    (h9 : 9 ≤ (expected_features.filter fun col =>
        data.columns.contains col).length)
    (h80 : 4 * data.cols.length ≤
        5 * (data.cols.filter (·.is_numeric_dtype)).length) :
    validate_csv_data data = (true, "Data validation passed") ∧
    (∀ d : DataFrame, d.cols.length < 5 →
      validate_csv_data d = (false, "CSV must contain at least 5 columns")) ∧
    (∀ d : DataFrame, ¬ d.cols.length < 5 →
      20 < (expected_features.filter fun col =>
          !(d.columns.contains col)).length →
      validate_csv_data d = (false,
        "Missing many expected feature columns: " ++
        pyListRepr ((expected_features.filter fun col =>
          !(d.columns.contains col)).take 5) ++ "...")) ∧
    (∀ d : DataFrame, ¬ d.cols.length < 5 →
      ¬ 20 < (expected_features.filter fun col =>
          !(d.columns.contains col)).length →
      ((d.cols.filter (·.is_numeric_dtype)).length : ℚ) <
        (d.cols.length : ℚ) * (8 / 10) →
      validate_csv_data d = (false, "Most columns should be numeric")) := by
  refine ⟨?_, ?_, ?_, ?_⟩
  · have hsplit : (expected_features.filter fun col =>
          data.columns.contains col).length +
        (expected_features.filter fun col =>
          !(data.columns.contains col)).length = 28 := by
      rw [← List.countP_eq_length_filter, ← List.countP_eq_length_filter]
      have hsp := List.length_eq_countP_add_countP
        (p := fun col => data.columns.contains col) (l := expected_features)
      have h28 : expected_features.length = 28 := by decide
      have hbridge : List.countP
          (fun a => decide ¬(data.columns.contains a = true))
          expected_features =
          List.countP (fun col => !(data.columns.contains col))
          expected_features := by
        apply List.countP_congr
        intro a _
        cases h : data.columns.contains a <;> simp [h]
      omega
    have hmiss : ¬ 20 < (expected_features.filter fun col =>
        !(data.columns.contains col)).length := by omega
    have hnum : ¬ (((data.cols.filter (·.is_numeric_dtype)).length : ℚ) <
        (data.cols.length : ℚ) * (8 / 10)) := by
      rw [not_lt]
      have hq : (4 : ℚ) * data.cols.length ≤
          5 * (data.cols.filter (·.is_numeric_dtype)).length := by
        exact_mod_cast h80
      linarith
    rw [validate_csv_data, if_neg (Nat.not_lt.mpr h5), if_neg hmiss,
      if_neg hnum]
  · intro d hd
    rw [validate_csv_data, if_pos hd]
  · intro d hd hmiss
    rw [validate_csv_data, if_neg hd, if_pos hmiss]
  · intro d hd hmiss hnum
    rw [validate_csv_data, if_neg hd, if_neg hmiss, if_pos hnum]

/-- A concrete well-formed table: columns `V1..V9`, all numeric. -/
def sampleValidData : DataFrame :=
  ⟨[⟨"V1", [.num 0]⟩, ⟨"V2", [.num 0]⟩, ⟨"V3", [.num 0]⟩,
    ⟨"V4", [.num 0]⟩, ⟨"V5", [.num 0]⟩, ⟨"V6", [.num 0]⟩,
    ⟨"V7", [.num 0]⟩, ⟨"V8", [.num 0]⟩, ⟨"V9", [.num 0]⟩]⟩

/-- Witness for `validate_csv_accepts_wellformed` at `sampleValidData`. -/
theorem validate_csv_accepts_wellformed_witness :
    validate_csv_data sampleValidData = (true, "Data validation passed") :=
  (validate_csv_accepts_wellformed sampleValidData (by decide) (by decide)
    (by decide)).1

/-- Split a character list at every occurrence of `sep` (like Python
`str.split(sep)`): always returns at least one (possibly empty) part. -/
def splitOnChar (sep : Char) : List Char → List (List Char)
  | [] => [[]]
  | c :: cs =>
    let r := splitOnChar sep cs
    if c = sep then [] :: r
    else (c :: r.headD []) :: r.tail

/-- Numeric value of a digit string (most significant first). -/
def digitsVal (cs : List Char) : ℕ :=
  cs.foldl (fun acc c => acc * 10 + (c.toNat - 48)) 0

/-- The decimal core of the numeric-literal grammar accepted by
`pd.to_numeric`: optional sign, digits, optional fractional part.  The
proofs below do not depend on exactly which strings parse — only on the
dichotomy parse-or-NaN. -/
def parseNumericString (s : String) : Option ℚ :=
  let cs := s.toList
  let sgnBody : ℚ × List Char :=
    match cs with
    | '-' :: r => (-1, r)
    | '+' :: r => (1, r)
    | r => (1, r)
  match splitOnChar '.' sgnBody.2 with
  | [ip] =>
      if ip ≠ [] ∧ ip.all (·.isDigit) then some (sgnBody.1 * digitsVal ip)
      else none
  | [ip, fp] =>
      if (ip ++ fp) ≠ [] ∧ (ip ++ fp).all (·.isDigit) then
        some (sgnBody.1 *
          ((digitsVal ip : ℚ) + (digitsVal fp : ℚ) / (10 : ℚ) ^ fp.length))
      else none
  | _ => none

/-- `pd.to_numeric(·, errors='coerce')` on one cell: numbers pass through,
strings parse or become NaN, NaN stays NaN. -/
def Cell.to_numeric_coerce : Cell → Cell
  | .num q => .num q
  | .na => .na
  | .str s =>
      match parseNumericString s with
      | some q => .num q
      | none => .na

/-- The body of the `for col in features_df.columns` loop
(utils.py lines 60–65): a column whose dtype is already numeric is left
alone, any other column is coerced cell-by-cell. -/
def Column.coerce (c : Column) : Column :=
  if c.is_numeric_dtype then c
  else { c with cells := c.cells.map Cell.to_numeric_coerce }

/-- `fillna(0)` on one cell. -/
def Cell.fillna0 : Cell → Cell
  | .na => .num 0
  | x => x

/-- `fillna(0)` on one column. -/
def Column.fillna0 (c : Column) : Column :=
  { c with cells := c.cells.map Cell.fillna0 }

/-- The coercion loop applied to a whole frame. -/
def coerce_loop (d : DataFrame) : DataFrame := ⟨d.cols.map Column.coerce⟩

/-- `features_df.fillna(0)` applied to a whole frame. -/
def fillna_all (d : DataFrame) : DataFrame := ⟨d.cols.map Column.fillna0⟩

/-- `prepare_data_for_prediction` (utils.py lines 41–70): extract the raw
`Class` column as labels (dropping it from the features) when present,
coerce every non-numeric column, then `fillna(0)`. -/
def prepare_data_for_prediction (data : DataFrame) :
    DataFrame × Option Column :=
  let pair : DataFrame × Option Column :=
    if data.columns.contains "Class" then
      (⟨data.cols.filter fun c => !(c.name == "Class")⟩,
       data.cols.find? fun c => c.name == "Class")
    else (data, none)
  (fillna_all (coerce_loop pair.1), pair.2)

/-- Coercion preserves the column name. -/
theorem Column.name_coerce (c : Column) : (c.coerce).name = c.name := by
  unfold Column.coerce
  split <;> rfl

/-- `fillna(0)` preserves the column name. -/
theorem Column.name_fillna0 (c : Column) : (c.fillna0).name = c.name := rfl

/-- After coercion and `fillna(0)`, every cell of a column is numeric. -/
theorem coerce_fillna_all_num (col : Column) :
    ((col.coerce).fillna0).cells.all Cell.isNum = true := by
  unfold Column.coerce Column.fillna0
  by_cases h : col.is_numeric_dtype
  · simp only [if_pos h, List.all_map, List.all_eq_true]
    unfold Column.is_numeric_dtype at h
    rw [List.all_eq_true] at h
    intro x hx
    have := h x hx
    cases x <;> simp_all [Cell.fillna0, Cell.isNum, Function.comp]
  · simp only [if_neg h, List.all_map, List.all_eq_true]
    intro x _
    cases x with
    | num q => rfl
    | na => rfl
    | str s =>
        simp only [Function.comp, Cell.to_numeric_coerce]
        cases parseNumericString s <;> rfl

/-- C3.  `prepare_data_for_prediction` always returns an all-numeric
features table with no missing values (values failing coercion become 0),
extracts the raw `Class` column as labels when present (removing it from
the features), and returns no labels otherwise. -/
theorem prepare_returns_numeric_features (data : DataFrame) :
    (∀ c ∈ (prepare_data_for_prediction data).1.cols,
      c.cells.all Cell.isNum = true) ∧
    (∀ s : String, parseNumericString s = none →
      Cell.fillna0 (Cell.to_numeric_coerce (.str s)) = .num 0) ∧
    (data.columns.contains "Class" = true →
      (∃ lc, (prepare_data_for_prediction data).2 = some lc ∧
        lc.name = "Class" ∧ lc ∈ data.cols) ∧
      (prepare_data_for_prediction data).1.columns.contains "Class" = false) ∧
    (data.columns.contains "Class" = false →
      (prepare_data_for_prediction data).2 = none) := by
  refine ⟨?_, ?_, ?_, ?_⟩
  · intro c hc
    simp only [prepare_data_for_prediction, fillna_all, coerce_loop,
      List.map_map, List.mem_map] at hc
    obtain ⟨c0, _, rfl⟩ := hc
    exact coerce_fillna_all_num c0
  · intro s h
    simp [Cell.to_numeric_coerce, h, Cell.fillna0]
  · intro h
    have hmem : "Class" ∈ data.columns := by simpa using h
    have hex : ∃ c ∈ data.cols, c.name = "Class" := by
      simp only [DataFrame.columns, List.mem_map] at hmem
      obtain ⟨c, hc, hname⟩ := hmem
      exact ⟨c, hc, hname⟩
    constructor
    · have hsome : (data.cols.find? fun c => c.name == "Class").isSome := by
        rw [List.find?_isSome]
        obtain ⟨c, hc, hname⟩ := hex
        exact ⟨c, hc, by simp [hname]⟩
      obtain ⟨lc, hlc⟩ := Option.isSome_iff_exists.mp hsome
      refine ⟨lc, ?_, ?_, List.mem_of_find?_eq_some hlc⟩
      · simp [prepare_data_for_prediction, h, hlc, hmem]
      · have := List.find?_some hlc
        simpa using this
    · simp only [prepare_data_for_prediction, h, if_pos, fillna_all,
        coerce_loop, DataFrame.columns, List.map_map]
      suffices hcl : ¬ ("Class" ∈ List.map ((fun x => x.name) ∘ Column.fillna0 ∘
          Column.coerce) (if (List.map (fun x => x.name) data.cols).contains
            "Class" = true then
            (DataFrame.mk (List.filter (fun c => !(c.name == "Class")) data.cols),
              List.find? (fun c => c.name == "Class") data.cols)
          else (data, none)).1.cols) by
        simpa using hcl
      rw [if_pos (by simpa [DataFrame.columns] using h)]
      simp only [List.mem_map]
      rintro ⟨c, hc, hname⟩
      rw [List.mem_filter] at hc
      have hn : c.name ≠ "Class" := by
        have := hc.2
        simpa using this
      apply hn
      have : "Class" = c.name := by
        simpa [Column.name_fillna0, Column.name_coerce, Function.comp]
          using hname.symm
      exact this.symm
  · intro h
    have hmem : ¬ ("Class" ∈ data.columns) := by simpa using h
    simp [prepare_data_for_prediction, h, hmem]

/-- A concrete table with a `Class` column and a non-numeric column. -/
def sampleClassData : DataFrame :=
  ⟨[⟨"A", [.str "x", .na]⟩, ⟨"Class", [.num 1, .num 0]⟩]⟩

/-- Witness for `prepare_returns_numeric_features` at `sampleClassData`. -/
theorem prepare_returns_numeric_features_witness :
    ∃ lc, (prepare_data_for_prediction sampleClassData).2 = some lc ∧
      lc.name = "Class" ∧ lc ∈ sampleClassData.cols :=
  ((prepare_returns_numeric_features sampleClassData).2.2.1 (by decide)).1

/-- The result of `prepare_data_for_prediction` with the Python object
graph made explicit: `heap` lists the live DataFrame objects (an object
id is an index into it), `featuresRef` is the id of the returned features
object, `labels` the returned label column (`None` when absent). -/
structure PrepResult where
  heap : List DataFrame
  featuresRef : ℕ
  labels : Option Column
deriving Repr

/-- `prepare_data_for_prediction` as a heap transformer
(utils.py lines 41–70).  `data.drop('Class', axis=1)` and `fillna(0)`
each allocate a fresh object (appended to the heap); the loop
`features_df[col] = pd.to_numeric(...)` writes into the object
`features_df` currently refers to *in place*.  On the no-`Class` path
`features_df` aliases the caller's object, so those writes land in the
caller's table; the final `features_df = features_df.fillna(0)` rebinds
the name to a fresh object on both paths. -/
def prepare_data_effect (heap : List DataFrame) (dataRef : ℕ) : PrepResult :=
  let data := heap.getD dataRef ⟨[]⟩
  if data.columns.contains "Class" then
    let labels := data.cols.find? fun c => c.name == "Class"
    let dropped : DataFrame := ⟨data.cols.filter fun c => !(c.name == "Class")⟩
    let heap1 := heap ++ [dropped]
    let heap2 := heap1.set heap.length (coerce_loop dropped)
    let heap3 := heap2 ++ [fillna_all (coerce_loop dropped)]
    ⟨heap3, heap2.length, labels⟩
  else
    let heap1 := heap.set dataRef (coerce_loop data)
    let heap2 := heap1 ++ [fillna_all (coerce_loop data)]
    ⟨heap2, heap1.length, none⟩

/-- A concrete table without a `Class` column and with one non-numeric
column. -/
def sampleNoClassData : DataFrame := ⟨[⟨"A", [.str "x"]⟩]⟩

/-- C9 counterexample.  For the one-object heap holding a table with no
`Class` column, the returned features object is NOT the input object:
the final `fillna(0)` allocates a fresh frame, so the claim "the returned
features table is the input object itself" is false. -/
theorem prepare_effect_no_alias_counterexample :
    ¬ ((prepare_data_effect [sampleNoClassData] 0).featuresRef = 0) := by
  decide

/-- C9 amended.  On the no-`Class` path the in-place coercion writes do
hit the caller's object (its columns are overwritten with the coerced
values) while the returned features object is a fresh `fillna(0)` copy,
distinct from the input; on the `Class` path the caller's object is left
untouched (the loop operates on the dropped copy) and the returned object
is likewise fresh. -/
theorem prepare_effect_frame (heap : List DataFrame) (dataRef : ℕ)
    (hlt : dataRef < heap.length) :
    (¬ ((heap.getD dataRef ⟨[]⟩).columns.contains "Class" = true) →
      (prepare_data_effect heap dataRef).featuresRef ≠ dataRef ∧
      (prepare_data_effect heap dataRef).heap.getD dataRef ⟨[]⟩ =
        coerce_loop (heap.getD dataRef ⟨[]⟩) ∧
      (prepare_data_effect heap dataRef).heap.getD
          (prepare_data_effect heap dataRef).featuresRef ⟨[]⟩ =
        fillna_all (coerce_loop (heap.getD dataRef ⟨[]⟩))) ∧
    ((heap.getD dataRef ⟨[]⟩).columns.contains "Class" = true →
      (prepare_data_effect heap dataRef).heap.getD dataRef ⟨[]⟩ =
        heap.getD dataRef ⟨[]⟩ ∧
      (prepare_data_effect heap dataRef).featuresRef ≠ dataRef) := by
  constructor
  · intro h
    simp only [prepare_data_effect, if_neg h]
    refine ⟨?_, ?_, ?_⟩
    · rw [List.length_set]
      omega
    · rw [List.getD_eq_getElem?_getD, List.getElem?_append]
      rw [if_pos (by rw [List.length_set]; exact hlt)]
      rw [List.getElem?_set_self hlt]
      rfl
    · rw [List.getD_eq_getElem?_getD, List.length_set,
        show heap.length = (heap.set dataRef
          (coerce_loop (heap.getD dataRef ⟨[]⟩))).length from
          (List.length_set ..).symm,
        List.getElem?_concat_length]
      rfl
  · intro h
    simp only [prepare_data_effect, if_pos h]
    constructor
    · rw [List.getD_eq_getElem?_getD, List.getElem?_append]
      rw [if_pos (by rw [List.length_set, List.length_append]; omega)]
      rw [List.getElem?_set_ne (by omega), List.getElem?_append,
        if_pos hlt, List.getD_eq_getElem?_getD]
    · rw [List.length_set, List.length_append]
      omega

/-- Witness for `prepare_effect_frame` on the no-`Class` heap
`[sampleNoClassData]`. -/
theorem prepare_effect_frame_witness :
    (prepare_data_effect [sampleNoClassData] 0).featuresRef ≠ 0 ∧
    (prepare_data_effect [sampleNoClassData] 0).heap.getD 0 ⟨[]⟩ =
      coerce_loop ([sampleNoClassData].getD 0 ⟨[]⟩) ∧
    (prepare_data_effect [sampleNoClassData] 0).heap.getD
        (prepare_data_effect [sampleNoClassData] 0).featuresRef ⟨[]⟩ =
      fillna_all (coerce_loop ([sampleNoClassData].getD 0 ⟨[]⟩)) :=
  (prepare_effect_frame [sampleNoClassData] 0 (by decide)).1 (by decide)

/-- The decimal digit character for `d` (0–9). -/
def digitChar (d : ℕ) : Char := Char.ofNat (48 + d % 10)

/-- Decimal digits of `n`, most significant first (never empty). -/
def natDigits (n : ℕ) : List Char :=
  if _h : n < 10 then [digitChar n]
  else natDigits (n / 10) ++ [digitChar (n % 10)]
  decreasing_by exact Nat.div_lt_self (by omega) (by omega)

/-- Insert thousands separators counting from the right
(working on the reversed digit list). -/
def commaGroupRev : List Char → List Char
  | a :: b :: c :: d :: rest => a :: b :: c :: ',' :: commaGroupRev (d :: rest)
  | l => l

/-- Python `f"{n:,}"` for a natural number. -/
def pyThousands (n : ℕ) : String :=
  ⟨(commaGroupRev (natDigits n).reverse).reverse⟩

/-- Round to the nearest integer, ties to even (the rounding used by
Python float formatting, applied here to the exact rational value). -/
def roundHalfEven (q : ℚ) : ℤ :=
  let f := ⌊q⌋
  let r := q - f
  if r > 1 / 2 then f + 1
  else if r < 1 / 2 then f
  else if f % 2 = 0 then f else f + 1

/-- Python `f"{x:.pf}"` fixed-point formatting, modelled on the exact
rational value of the float. -/
def pyFixed (p : ℕ) (q : ℚ) : String :=
  let n := roundHalfEven (q * (10 : ℚ) ^ p)
  let sign := if n < 0 then "-" else ""
  let a := n.natAbs
  let ip := a / 10 ^ p
  let fp := a % 10 ^ p
  let fpDigits := natDigits fp
  let fpPadded := List.replicate (p - fpDigits.length) '0' ++ fpDigits
  sign ++ String.mk (natDigits ip) ++
    (if p = 0 then "" else "." ++ String.mk fpPadded)

/-- `f"{metrics['fraud_rate']:.2f}"`: NaN (`none`) prints as `nan`. -/
def fmtRate (x : Option ℚ) : String :=
  match x with
  | none => "nan"
  | some q => pyFixed 2 q

/-- The risk-assessment advisory block (utils.py lines 208–218): the
exact lines appended for each risk level.  HIGH and MEDIUM each append
three lines; the LOW branch appends only two. -/
def risk_assessment_lines (risk_level : String) : List String :=
  if risk_level = "HIGH" then
    ["- HIGH RISK: Fraud rate is above 5%. Immediate attention required.\n",
     "- Consider implementing additional security measures.\n",
     "- Review recent system changes and access patterns.\n"]
  else if risk_level = "MEDIUM" then
    ["- MEDIUM RISK: Fraud rate is between 2-5%. Monitor closely.\n",
     "- Review suspicious transactions manually.\n",
     "- Consider increasing monitoring frequency.\n"]
  else
    ["- LOW RISK: Fraud rate is below 2%. Normal operations.\n",
     "- Continue with current security protocols.\n"]

/-- The probability-analysis block (utils.py lines 220–224), appended
only when the probability statistics are present in the metrics
dictionary; mean, max, and min are formatted to 3 decimal places. -/
def probability_analysis_block (m : RiskMetrics) : String :=
  match m.probStats with
  | none => ""
  | some st =>
      "\nProbability Analysis:\n" ++
      "- Average Fraud Probability: " ++
        pyFixed 3 st.avg_fraud_probability ++ "\n" ++
      "- Maximum Fraud Probability: " ++
        pyFixed 3 st.max_fraud_probability ++ "\n" ++
      "- Minimum Fraud Probability: " ++
        pyFixed 3 st.min_fraud_probability ++ "\n"

/-- `generate_summary_report` (utils.py lines 181–226).  `now` stands for
the `datetime.now()` timestamp string. -/
def generate_summary_report (metrics : RiskMetrics) (model_path : String)
    (now : String) : String :=
  "\nFraud Detection Report\nGenerated: " ++ now ++ "\n\nSummary:\n" ++
  "- Total Transactions: " ++ pyThousands metrics.total_transactions ++ "\n" ++
  "- Legitimate Transactions: " ++
    pyThousands metrics.legitimate_count ++ "\n" ++
  "- Fraudulent Transactions: " ++ pyThousands metrics.fraud_count ++ "\n" ++
  "- Fraud Rate: " ++ fmtRate metrics.fraud_rate ++ "%\n" ++
  "- Risk Level: " ++ metrics.risk_level ++ " " ++ metrics.risk_icon ++
  "\n\nModel Used: " ++ model_path ++ "\n\nRisk Assessment:\n" ++
  String.join (risk_assessment_lines metrics.risk_level) ++
  probability_analysis_block metrics

/-- C7 counterexample.  The claim says every risk level has exactly three
fixed advisory sentences; the LOW branch appends only two. -/
theorem low_advisory_not_three_lines :
    ¬ ((risk_assessment_lines "LOW").length = 3) := by decide

/-- C7 amended.  The report contains a risk-level-specific verbatim
advisory block — three fixed lines for HIGH, three for MEDIUM, but only
two for LOW — and, exactly when probability statistics are present, a
probability-analysis block with mean, max, and min formatted to 3 decimal
places. -/
theorem report_advisory_blocks (m : RiskMetrics) (model_path now : String) :
    (risk_assessment_lines "HIGH" =
      ["- HIGH RISK: Fraud rate is above 5%. Immediate attention required.\n",
       "- Consider implementing additional security measures.\n",
       "- Review recent system changes and access patterns.\n"]) ∧
    (risk_assessment_lines "MEDIUM" =
      ["- MEDIUM RISK: Fraud rate is between 2-5%. Monitor closely.\n",
       "- Review suspicious transactions manually.\n",
       "- Consider increasing monitoring frequency.\n"]) ∧
    (risk_assessment_lines "LOW" =
      ["- LOW RISK: Fraud rate is below 2%. Normal operations.\n",
       "- Continue with current security protocols.\n"]) ∧
    (∃ pre : String, generate_summary_report m model_path now =
      pre ++ String.join (risk_assessment_lines m.risk_level) ++
        probability_analysis_block m) ∧
    (∀ st, m.probStats = some st →
      probability_analysis_block m =
        "\nProbability Analysis:\n" ++
        "- Average Fraud Probability: " ++
          pyFixed 3 st.avg_fraud_probability ++ "\n" ++
        "- Maximum Fraud Probability: " ++
          pyFixed 3 st.max_fraud_probability ++ "\n" ++
        "- Minimum Fraud Probability: " ++
          pyFixed 3 st.min_fraud_probability ++ "\n") ∧
    (m.probStats = none → probability_analysis_block m = "") := by
  refine ⟨by decide, by decide, by decide, ?_, ?_, ?_⟩
  · refine ⟨"\nFraud Detection Report\nGenerated: " ++ now ++
      "\n\nSummary:\n" ++
      "- Total Transactions: " ++ pyThousands m.total_transactions ++ "\n" ++
      "- Legitimate Transactions: " ++
        pyThousands m.legitimate_count ++ "\n" ++
      "- Fraudulent Transactions: " ++ pyThousands m.fraud_count ++ "\n" ++
      "- Fraud Rate: " ++ fmtRate m.fraud_rate ++ "%\n" ++
      "- Risk Level: " ++ m.risk_level ++ " " ++ m.risk_icon ++
      "\n\nModel Used: " ++ model_path ++ "\n\nRisk Assessment:\n", ?_⟩
    rw [generate_summary_report]
  · intro st hst
    rw [probability_analysis_block, hst]
  · intro hst
    rw [probability_analysis_block, hst]

/-- Witness for `report_advisory_blocks` at a concrete LOW metrics record
with probability statistics. -/
theorem report_advisory_blocks_witness :
    risk_assessment_lines "LOW" =
      ["- LOW RISK: Fraud rate is below 2%. Normal operations.\n",
       "- Continue with current security protocols.\n"] :=
  (report_advisory_blocks
    ⟨10, 10, 0, some 0, "LOW", "✅", some ⟨1/2, 3/4, 1/4⟩⟩
    "model.pkl" "2026-01-01 00:00:00").2.2.1

/-- The process-wide `RESULTS_STORE`: token → stored CSV bytes. -/
def Store : Type := String → Option (List Char)

/-- The two outcomes of the `/download/<token>` route: the CSV attachment,
or the flash-and-redirect for an expired/unknown token. -/
inductive DownloadOutcome where
  | file (data : List Char)
  | expiredRedirect
deriving DecidableEq, Repr

/-- The `download` route (flask_app.py lines 187–200).  `if not data:`
treats both a missing token and an empty stored byte string as expired;
otherwise the entry is popped (one-time download) and the bytes are
served. -/
def download (store : Store) (token : String) : DownloadOutcome × Store :=
  match store token with
  | none => (.expiredRedirect, store)
  | some data =>
      if data = [] then (.expiredRedirect, store)
      else (.file data, fun t => if t = token then none else store t)

/-- C6.  A stored (non-empty) artifact is retrievable exactly once: the
first download returns the bytes and deletes the entry, a second download
with the same token — and any download with an unknown token — yields the
expired-token outcome and leaves the store unchanged.  (Every artifact the
app stores is `DataFrame.to_csv` output, which always contains at least a
header line, hence is non-empty.) -/
theorem download_exactly_once (store : Store) (token : String)
    (data : List Char) (hstored : store token = some data)
    (hne : data ≠ []) :
    (download store token).1 = .file data ∧
    (download store token).2 token = none ∧
    (download (download store token).2 token).1 = .expiredRedirect ∧
    (download (download store token).2 token).2 = (download store token).2 ∧
    (∀ (s : Store) (t : String), s t = none →
      (download s t).1 = .expiredRedirect ∧ (download s t).2 = s) := by
  have h1 : download store token =
      (.file data, fun t => if t = token then none else store t) := by
    rw [download, hstored]
    exact if_neg hne
  refine ⟨by rw [h1], by rw [h1]; simp, ?_, ?_, ?_⟩
  · rw [h1]
    show (download (fun t => if t = token then none else store t) token).1 =
      DownloadOutcome.expiredRedirect
    rw [download]
    simp
  · rw [h1]
    show (download (fun t => if t = token then none else store t) token).2 =
      fun t => if t = token then none else store t
    rw [download]
    simp
  · intro s t hmiss
    rw [download, hmiss]
    exact ⟨rfl, rfl⟩

/-- A concrete one-entry store. -/
def sampleStore : Store :=
  fun t => if t = "tok" then some ['h', 'i'] else none

/-- Witness for `download_exactly_once` on `sampleStore`. -/
theorem download_exactly_once_witness :
    (download sampleStore "tok").1 = .file ['h', 'i'] ∧
    (download sampleStore "tok").2 "tok" = none :=
  ⟨(download_exactly_once sampleStore "tok" ['h', 'i'] rfl (by decide)).1,
   (download_exactly_once sampleStore "tok" ['h', 'i'] rfl (by decide)).2.1⟩

/-- Join parts with a separator character (CSV field/line joining). -/
def intercalateChar (sep : Char) : List (List Char) → List Char
  | [] => []
  | [p] => p
  | p :: q :: ps => p ++ sep :: intercalateChar sep (q :: ps)

/-- `splitOnChar` never returns the empty list of parts. -/
theorem splitOnChar_ne_nil (sep : Char) (cs : List Char) :
    splitOnChar sep cs ≠ [] := by
  cases cs with
  | nil => simp [splitOnChar]
  | cons c cs =>
      rw [splitOnChar]
      split <;> simp

/-- Splitting a separator-free string yields a single part. -/
theorem splitOnChar_eq_single (sep : Char) (cs : List Char)
    (h : sep ∉ cs) : splitOnChar sep cs = [cs] := by
  induction cs with
  | nil => rfl
  | cons c cs ih =>
      have hc : ¬ (c = sep) := fun hc => h (hc ▸ List.mem_cons_self c cs)
      have hcs : sep ∉ cs := fun hm => h (List.mem_cons_of_mem _ hm)
      rw [splitOnChar]
      simp only [if_neg hc, ih hcs]
      rfl

/-- Splitting `xs ++ sep :: ys` with `sep ∉ xs` peels off `xs`. -/
theorem splitOnChar_append_cons (sep : Char) (xs ys : List Char)
    (h : sep ∉ xs) :
    splitOnChar sep (xs ++ sep :: ys) = xs :: splitOnChar sep ys := by
  induction xs with
  | nil => simp [splitOnChar]
  | cons x xs ih =>
      have hx : ¬ (x = sep) := fun hc => h (hc ▸ List.mem_cons_self x xs)
      have hxs : sep ∉ xs := fun hm => h (List.mem_cons_of_mem _ hm)
      rw [List.cons_append, splitOnChar]
      simp only [if_neg hx, ih hxs]
      rfl

/-- Splitting the newline-terminated concatenation of separator-free lines
recovers the lines (plus the empty chunk after the trailing separator). -/
theorem splitOnChar_join_lines (sep : Char) (lines : List (List Char))
    (h : ∀ l ∈ lines, sep ∉ l) :
    splitOnChar sep ((lines.map (fun l => l ++ [sep])).flatten) =
      lines ++ [[]] := by
  induction lines with
  | nil => rfl
  | cons l ls ih =>
      have hl : sep ∉ l := h l (List.mem_cons_self l ls)
      have hls : ∀ x ∈ ls, sep ∉ x := fun x hx =>
        h x (List.mem_cons_of_mem _ hx)
      rw [List.map_cons, List.flatten_cons, List.append_assoc,
        List.singleton_append, splitOnChar_append_cons sep l _ hl, ih hls]
      rfl

/-- Splitting an intercalation of separator-free parts recovers the
parts. -/
theorem splitOnChar_intercalateChar (sep : Char) (parts : List (List Char))
    (hne : parts ≠ []) (h : ∀ p ∈ parts, sep ∉ p) :
    splitOnChar sep (intercalateChar sep parts) = parts := by
  induction parts with
  | nil => exact absurd rfl hne
  | cons p ps ih =>
      cases ps with
      | nil =>
          exact splitOnChar_eq_single sep p (h p (List.mem_cons_self p []))
      | cons q qs =>
          rw [intercalateChar, splitOnChar_append_cons sep p _
            (h p (List.mem_cons_self p _))]
          rw [ih (by simp) (fun x hx => h x (List.mem_cons_of_mem _ hx))]

/-- Every character of an intercalation is the separator or comes from a
part. -/
theorem mem_intercalateChar (sep : Char) (parts : List (List Char))
    (c : Char) (hc : c ∈ intercalateChar sep parts) :
    c = sep ∨ ∃ p ∈ parts, c ∈ p := by
  induction parts with
  | nil => simp [intercalateChar] at hc
  | cons p ps ih =>
      cases ps with
      | nil =>
          right
          exact ⟨p, List.mem_cons_self p [], hc⟩
      | cons q qs =>
          rw [intercalateChar] at hc
          rcases List.mem_append.mp hc with h | h
          · right
            exact ⟨p, List.mem_cons_self p _, h⟩
          · rcases List.mem_cons.mp h with h | h
            · exact Or.inl h
            · rcases ih h with h | ⟨x, hx, hcx⟩
              · exact Or.inl h
              · exact Or.inr ⟨x, List.mem_cons_of_mem _ hx, hcx⟩

/-- An intercalation with a non-empty part is non-empty. -/
theorem intercalateChar_ne_nil (sep : Char) (parts : List (List Char))
    (p : List Char) (hp : p ∈ parts) (hpne : p ≠ []) :
    intercalateChar sep parts ≠ [] := by
  cases parts with
  | nil => simp at hp
  | cons q qs =>
      cases qs with
      | nil =>
          have : p = q := by simpa using hp
          subst this
          simpa [intercalateChar] using hpne
      | cons r rs =>
          rw [intercalateChar]
          intro hcontra
          rcases List.append_eq_nil.mp hcontra with ⟨_, h2⟩
          exact List.cons_ne_nil _ _ h2

/-- The digit characters. -/
theorem digitChar_mem_digits (d : ℕ) :
    digitChar d ∈ ['0', '1', '2', '3', '4', '5', '6', '7', '8', '9'] := by
  unfold digitChar
  have h : d % 10 < 10 := Nat.mod_lt _ (by omega)
  set m := d % 10 with hm
  interval_cases m <;> decide

/-- Every character produced by `natDigits` is a decimal digit. -/
theorem natDigits_mem_digits (n : ℕ) :
    ∀ c ∈ natDigits n,
      c ∈ ['0', '1', '2', '3', '4', '5', '6', '7', '8', '9'] := by
  induction n using Nat.strong_induction_on with
  | _ n ih =>
      intro c hc
      rw [natDigits] at hc
      split at hc
      · simp only [List.mem_singleton] at hc
        exact hc ▸ digitChar_mem_digits n
      · rcases List.mem_append.mp hc with h | h
        · exact ih (n / 10) (Nat.div_lt_self (by omega) (by omega)) c h
        · simp only [List.mem_singleton] at h
          exact h ▸ digitChar_mem_digits (n % 10)

/-- No digit is a comma or a newline. -/
theorem natDigits_no_sep (n : ℕ) :
    ∀ c ∈ natDigits n, ¬ (c = ',') ∧ ¬ (c = '\n') := by
  intro c hc
  have h := natDigits_mem_digits n c hc
  simp only [List.mem_cons, List.not_mem_nil, or_false] at h
  rcases h with rfl | rfl | rfl | rfl | rfl | rfl | rfl | rfl | rfl | rfl <;>
    exact ⟨by decide, by decide⟩

/-- A rational rendered as a field of the output CSV.  (pandas prints the
binary64 value in decimal; the model prints the exact rational.  The
round-trip property needs only that the rendering stays inside one CSV
field, i.e. contains no separator characters.) -/
def renderNum (q : ℚ) : List Char :=
  (if q.num < 0 then ['-'] else []) ++ natDigits q.num.natAbs ++
  (if q.den = 1 then [] else '/' :: natDigits q.den)

/-- `renderNum` never contains a comma or a newline. -/
theorem renderNum_no_sep (q : ℚ) :
    ∀ c ∈ renderNum q, ¬ (c = ',') ∧ ¬ (c = '\n') := by
  intro c hc
  unfold renderNum at hc
  rcases List.mem_append.mp hc with h | h
  · rcases List.mem_append.mp h with h | h
    · split at h
      · simp only [List.mem_singleton] at h
        exact h ▸ ⟨by decide, by decide⟩
      · simp at h
    · exact natDigits_no_sep _ c h
  · split at h
    · simp at h
    · rcases List.mem_cons.mp h with rfl | h
      · exact ⟨by decide, by decide⟩
      · exact natDigits_no_sep _ c h

/-- One cell rendered into the output CSV: numbers as `renderNum`,
strings verbatim, NaN as the empty field (pandas `to_csv` default). -/
def renderCell : Cell → List Char
  | .num q => renderNum q
  | .str s => s.toList
  | .na => []

/-- The `Fraud Prediction` column value
(`.map({0: 'Legitimate', 1: 'Fraudulent'})`, flask_app.py line 136):
0 and 1 map to their labels, anything else becomes NaN, which `to_csv`
writes as an empty field. -/
def fraudPredictionLabel (p : ℤ) : List Char :=
  if p = 0 then "Legitimate".toList
  else if p = 1 then "Fraudulent".toList
  else []

/-- The data rows of `results_df` (flask_app.py lines 134–138): the
original row cells followed by the prediction label and — when
probabilities are present — the probability field. -/
def augmentedRows (rows : List (List (List Char))) (preds : List ℤ)
    (proba : Option (List ℚ)) : List (List (List Char)) :=
  match proba with
  | none => List.zipWith (fun r p => r ++ [fraudPredictionLabel p]) rows preds
  | some qs => List.zipWith
      (fun r pq => r ++ [fraudPredictionLabel pq.1, renderNum pq.2])
      rows (preds.zip qs)

/-- The header row of `results_df`. -/
def csvHeaderCells (header : List (List Char)) (proba : Option (List ℚ)) :
    List (List Char) :=
  header ++ ["Fraud Prediction".toList] ++
    (match proba with
     | none => []
     | some _ => ["Fraud Probability".toList])

/-- `results_df.to_csv(index=False)` (flask_app.py line 140): header line
then data lines, each comma-joined and newline-terminated. -/
def encodeResultsCsv (header : List (List Char))
    (rows : List (List (List Char))) (preds : List ℤ)
    (proba : Option (List ℚ)) : List Char :=
  let lines := intercalateChar ',' (csvHeaderCells header proba) ::
    (augmentedRows rows preds proba).map (intercalateChar ',')
  (lines.map (fun l => l ++ ['\n'])).flatten

/-- Re-parsing a CSV byte stream: split into lines, skip blank lines
(`pd.read_csv` default), split each line into comma-separated fields. -/
def parseCsv (cs : List Char) : List (List (List Char)) :=
  ((splitOnChar '\n' cs).filter (fun l => !(l.isEmpty))).map
    (splitOnChar ',')

/-- Parsing the encoded CSV recovers the header cells and the augmented
rows, provided every field is separator-free and every line has a
non-empty field. -/
theorem parseCsv_encode (headerCells : List (List Char))
    (aug : List (List (List Char)))
    (hh1 : ∀ p ∈ headerCells, ¬ (',' ∈ p) ∧ ¬ ('\n' ∈ p))
    (hh2 : ∃ p ∈ headerCells, p ≠ [])
    (ha1 : ∀ a ∈ aug, ∀ p ∈ a, ¬ (',' ∈ p) ∧ ¬ ('\n' ∈ p))
    (ha2 : ∀ a ∈ aug, ∃ p ∈ a, p ≠ []) :
    parseCsv ((((intercalateChar ',' headerCells ::
        aug.map (intercalateChar ','))).map (fun l => l ++ ['\n'])).flatten) =
      headerCells :: aug := by
  set lines := intercalateChar ',' headerCells ::
    aug.map (intercalateChar ',') with hlines
  have hnosep : ∀ l ∈ lines, '\n' ∉ l := by
    intro l hl
    rw [hlines] at hl
    rcases List.mem_cons.mp hl with rfl | hl
    · intro hc
      rcases mem_intercalateChar ',' headerCells '\n' hc with h | ⟨p, hp, hcp⟩
      · exact absurd h (by decide)
      · exact (hh1 p hp).2 hcp
    · rcases List.mem_map.mp hl with ⟨a, ha, rfl⟩
      intro hc
      rcases mem_intercalateChar ',' a '\n' hc with h | ⟨p, hp, hcp⟩
      · exact absurd h (by decide)
      · exact (ha1 a ha p hp).2 hcp
  have hsplit := splitOnChar_join_lines '\n' lines hnosep
  have hne : ∀ l ∈ lines, l ≠ [] := by
    intro l hl
    rw [hlines] at hl
    rcases List.mem_cons.mp hl with rfl | hl
    · obtain ⟨p, hp, hpne⟩ := hh2
      exact intercalateChar_ne_nil ',' headerCells p hp hpne
    · rcases List.mem_map.mp hl with ⟨a, ha, rfl⟩
      obtain ⟨p, hp, hpne⟩ := ha2 a ha
      exact intercalateChar_ne_nil ',' a p hp hpne
  rw [parseCsv, hsplit, List.filter_append]
  have hfl : lines.filter (fun l => !(l.isEmpty)) = lines := by
    rw [List.filter_eq_self]
    intro a ha
    simpa [List.isEmpty_iff] using hne a ha
  rw [hfl]
  have hfr : ([[]] : List (List Char)).filter (fun l => !(l.isEmpty)) = [] :=
    rfl
  rw [hfr, List.append_nil, hlines, List.map_cons,
    splitOnChar_intercalateChar ',' headerCells
      (by rintro rfl; simp at hh2) (fun p hp => (hh1 p hp).1),
    List.map_map]
  congr 1
  rw [show (splitOnChar ',' ∘ intercalateChar ',') = fun a =>
    splitOnChar ',' (intercalateChar ',' a) from rfl]
  have : ∀ a ∈ aug, splitOnChar ',' (intercalateChar ',' a) = a := by
    intro a ha
    have hane : a ≠ [] := by
      intro hnil
      obtain ⟨p, hp, _⟩ := ha2 a ha
      rw [hnil] at hp
      simp at hp
    exact splitOnChar_intercalateChar ',' a hane
      (fun p hp => (ha1 a ha p hp).1)
  calc List.map (fun a => splitOnChar ',' (intercalateChar ',' a)) aug
      = List.map id aug := List.map_congr_left this
    _ = aug := List.map_id aug

/-- Membership in a `zipWith` comes from members of the two lists. -/
theorem mem_zipWith {α β γ : Type} {f : α → β → γ} {x : γ} :
    ∀ {as : List α} {bs : List β}, x ∈ List.zipWith f as bs →
      ∃ a ∈ as, ∃ b ∈ bs, x = f a b := by
  intro as
  induction as with
  | nil => intro bs h; simp at h
  | cons a as ih =>
      intro bs h
      cases bs with
      | nil => simp at h
      | cons b bs =>
          rw [List.zipWith_cons_cons] at h
          rcases List.mem_cons.mp h with rfl | h
          · exact ⟨a, List.mem_cons_self a as, b, List.mem_cons_self b bs, rfl⟩
          · obtain ⟨a', ha', b', hb', rfl⟩ := ih h
            exact ⟨a', List.mem_cons_of_mem _ ha', b',
              List.mem_cons_of_mem _ hb', rfl⟩

/-- The prediction label contains no separator character. -/
theorem fraudPredictionLabel_no_sep (p : ℤ) :
    ¬ (',' ∈ fraudPredictionLabel p) ∧ ¬ ('\n' ∈ fraudPredictionLabel p) := by
  unfold fraudPredictionLabel
  split
  · exact ⟨by decide, by decide⟩
  · split
    · exact ⟨by decide, by decide⟩
    · exact ⟨by decide, by decide⟩

/-- Reading the field right after the original row cells. -/
theorem getD_append_field {r : List (List Char)} {n : ℕ}
    (h : r.length = n) (x : List Char) (rest : List (List Char)) :
    (r ++ x :: rest).getD n [] = x := by
  rw [List.getD_eq_getElem?_getD, List.getElem?_append, if_neg (by omega)]
  have h0 : n - r.length = 0 := by omega
  rw [h0]
  simp

/-- Extracting the label field from the augmented rows (no probability
column). -/
theorem extract_labels_none :
    ∀ (rows : List (List (List Char))) (preds : List ℤ) (n : ℕ),
      rows.length = preds.length → (∀ r ∈ rows, r.length = n) →
      (∀ p ∈ preds, p = 0 ∨ p = 1) →
      (List.zipWith (fun r p => r ++ [fraudPredictionLabel p]) rows preds).map
          (fun fields => fields.getD n []) =
        preds.map (fun p =>
          if p = 1 then "Fraudulent".toList else "Legitimate".toList) := by
  intro rows
  induction rows with
  | nil =>
      intro preds n hlen _ _
      cases preds with
      | nil => rfl
      | cons p ps => simp at hlen
  | cons r rs ih =>
      intro preds n hlen hrow hpred
      cases preds with
      | nil => simp at hlen
      | cons p ps =>
          rw [List.zipWith_cons_cons, List.map_cons, List.map_cons]
          have h1 : (r ++ [fraudPredictionLabel p]).getD n [] =
              (if p = 1 then "Fraudulent".toList
               else "Legitimate".toList) := by
            rw [getD_append_field (hrow r (List.mem_cons_self r rs))]
            rcases hpred p (List.mem_cons_self p ps) with rfl | rfl <;> rfl
          rw [h1, ih ps n (by simpa using hlen)
            (fun x hx => hrow x (List.mem_cons_of_mem _ hx))
            (fun x hx => hpred x (List.mem_cons_of_mem _ hx))]

/-- Extracting the label field from the augmented rows (with probability
column). -/
theorem extract_labels_some :
    ∀ (rows : List (List (List Char))) (preds : List ℤ) (qs : List ℚ)
      (n : ℕ),
      rows.length = preds.length → preds.length = qs.length →
      (∀ r ∈ rows, r.length = n) → (∀ p ∈ preds, p = 0 ∨ p = 1) →
      (List.zipWith
          (fun r pq => r ++ [fraudPredictionLabel pq.1, renderNum pq.2])
          rows (preds.zip qs)).map (fun fields => fields.getD n []) =
        preds.map (fun p =>
          if p = 1 then "Fraudulent".toList else "Legitimate".toList) := by
  intro rows
  induction rows with
  | nil =>
      intro preds qs n hlen hlen2 _ _
      cases preds with
      | nil => rfl
      | cons p ps => simp at hlen
  | cons r rs ih =>
      intro preds qs n hlen hlen2 hrow hpred
      cases preds with
      | nil => simp at hlen
      | cons p ps =>
          cases qs with
          | nil => simp at hlen2
          | cons q qs =>
              rw [List.zip_cons_cons, List.zipWith_cons_cons, List.map_cons,
                List.map_cons]
              have h1 : (r ++ [fraudPredictionLabel (p, q).1,
                  renderNum (p, q).2]).getD n [] =
                  (if p = 1 then "Fraudulent".toList
                   else "Legitimate".toList) := by
                rw [getD_append_field (hrow r (List.mem_cons_self r rs))]
                rcases hpred p (List.mem_cons_self p ps) with rfl | rfl <;> rfl
              rw [h1, ih ps qs n (by simpa using hlen) (by simpa using hlen2)
                (fun x hx => hrow x (List.mem_cons_of_mem _ hx))
                (fun x hx => hpred x (List.mem_cons_of_mem _ hx))]

/-- C8.  Round-trip: encoding the prediction result into the output CSV —
original cells plus the appended `Fraud Prediction` column (0 →
`Legitimate`, 1 → `Fraudulent`) and the optional probability column —
and re-parsing that CSV recovers the prediction label, as the string
`Legitimate` or `Fraudulent`, for every row in the original order.
The table cells are assumed separator-free (the app's feature data is
numeric; `to_csv` would quote a field containing a separator). -/
theorem csv_roundtrip_recovers_labels (header : List (List Char))
    (rows : List (List (List Char))) (preds : List ℤ)
    (proba : Option (List ℚ))
    (hlen : rows.length = preds.length)
    (hplen : ∀ qs, proba = some qs → preds.length = qs.length)
    (hrowlen : ∀ r ∈ rows, r.length = header.length)
    (hcells : ∀ r ∈ rows, ∀ c ∈ r, ¬ (',' ∈ c) ∧ ¬ ('\n' ∈ c))
    (hheader : ∀ c ∈ header, ¬ (',' ∈ c) ∧ ¬ ('\n' ∈ c))
    (hpred : ∀ p ∈ preds, p = 0 ∨ p = 1) :
    (parseCsv (encodeResultsCsv header rows preds proba)).tail.map
        (fun fields => fields.getD header.length []) =
      preds.map (fun p =>
        if p = 1 then "Fraudulent".toList else "Legitimate".toList) := by
  have hh1 : ∀ p ∈ csvHeaderCells header proba,
      ¬ (',' ∈ p) ∧ ¬ ('\n' ∈ p) := by
    intro p hp
    unfold csvHeaderCells at hp
    rcases List.mem_append.mp hp with hp | hp
    · rcases List.mem_append.mp hp with hp | hp
      · exact hheader p hp
      · simp only [List.mem_singleton] at hp
        subst hp
        exact ⟨by decide, by decide⟩
    · cases proba <;> simp only [List.mem_singleton] at hp
      · exact absurd hp (List.not_mem_nil p)
      · subst hp
        exact ⟨by decide, by decide⟩
  have hh2 : ∃ p ∈ csvHeaderCells header proba, p ≠ [] := by
    refine ⟨"Fraud Prediction".toList, ?_, by decide⟩
    unfold csvHeaderCells
    exact List.mem_append.mpr (Or.inl (List.mem_append.mpr (Or.inr
      (List.mem_singleton.mpr rfl))))
  have ha1 : ∀ a ∈ augmentedRows rows preds proba,
      ∀ p ∈ a, ¬ (',' ∈ p) ∧ ¬ ('\n' ∈ p) := by
    intro a ha p hp
    unfold augmentedRows at ha
    cases proba with
    | none =>
        obtain ⟨r, hr, p', _, rfl⟩ := mem_zipWith ha
        rcases List.mem_append.mp hp with hp | hp
        · exact hcells r hr p hp
        · simp only [List.mem_singleton] at hp
          subst hp
          exact fraudPredictionLabel_no_sep p'
    | some qs =>
        obtain ⟨r, hr, pq, _, rfl⟩ := mem_zipWith ha
        rcases List.mem_append.mp hp with hp | hp
        · exact hcells r hr p hp
        · rcases List.mem_cons.mp hp with rfl | hp
          · exact fraudPredictionLabel_no_sep pq.1
          · simp only [List.mem_singleton] at hp
            subst hp
            exact ⟨fun hc => (renderNum_no_sep pq.2 ',' hc).1 rfl,
              fun hc => (renderNum_no_sep pq.2 '\n' hc).2 rfl⟩
  have ha2 : ∀ a ∈ augmentedRows rows preds proba, ∃ p ∈ a, p ≠ [] := by
    intro a ha
    unfold augmentedRows at ha
    cases proba with
    | none =>
        obtain ⟨r, _, p', hp', rfl⟩ := mem_zipWith ha
        refine ⟨fraudPredictionLabel p', ?_, ?_⟩
        · exact List.mem_append.mpr (Or.inr (List.mem_singleton.mpr rfl))
        · rcases hpred p' hp' with rfl | rfl <;> decide
    | some qs =>
        obtain ⟨r, _, pq, hpq, rfl⟩ := mem_zipWith ha
        obtain ⟨p1, q1⟩ := pq
        have hp1 : p1 ∈ preds := (List.of_mem_zip hpq).1
        refine ⟨fraudPredictionLabel p1, ?_, ?_⟩
        · exact List.mem_append.mpr (Or.inr (List.mem_cons_self _ _))
        · rcases hpred p1 hp1 with h | h <;> rw [h] <;> decide
  have henc := parseCsv_encode (csvHeaderCells header proba)
    (augmentedRows rows preds proba) hh1 hh2 ha1 ha2
  rw [encodeResultsCsv] at *
  rw [henc, List.tail_cons]
  unfold augmentedRows
  cases proba with
  | none =>
      exact extract_labels_none rows preds header.length hlen hrowlen hpred
  | some qs =>
      exact extract_labels_some rows preds qs header.length hlen
        (hplen qs rfl) hrowlen hpred

/-- Witness for `csv_roundtrip_recovers_labels`: a two-row table with one
feature column, predictions `[0, 1]`, no probabilities. -/
theorem csv_roundtrip_recovers_labels_witness :
    (parseCsv (encodeResultsCsv [['V', '1']] [[['3']], [['7']]] [0, 1]
        none)).tail.map (fun fields => fields.getD 1 []) =
      [0, 1].map (fun p : ℤ =>
        if p = 1 then "Fraudulent".toList else "Legitimate".toList) :=
  csv_roundtrip_recovers_labels [['V', '1']] [[['3']], [['7']]] [0, 1] none
    (by decide) (fun qs h => nomatch h) (by decide) (by decide) (by decide)
    (by decide)

/-- The model collaborator: a `predict` operation that may raise, and an
optional `predict_proba` whose failures (exception, wrong shape) are
swallowed into `none` by the nested `try` (flask_app.py lines 121–128). -/
structure Model where
  predictFn : DataFrame → Except String (List ℤ)
  predict_proba : Option (DataFrame → Option (List ℚ))

/-- The state of the upload as the handler sees it: no `file` part, a
missing/empty filename, or a payload whose CSV parse either failed
(`pd.read_csv` raised) or produced a DataFrame. -/
inductive UploadField where
  | missingPart
  | emptyFilename
  | payload (csv : Except String DataFrame)

/-- The observable outcomes of the `/predict` handler: a
flash-and-redirect to `/analyze`, an unhandled exception (HTTP 500), or
the rendered results page carrying the download token and row count. -/
inductive PredictOutcome where
  | redirectAnalyze (msg : String)
  | serverError (msg : String)
  | resultsPage (token : String) (row_count : ℕ)

/-- `len(df)`: the number of rows (length of the first column). -/
def DataFrame.rowCount (d : DataFrame) : ℕ :=
  (d.cols.headD ⟨"", []⟩).cells.length

/-- The rows of a DataFrame rendered to CSV fields. -/
def rowsOfFrame (d : DataFrame) : List (List (List Char)) :=
  (List.range d.rowCount).map fun i =>
    d.cols.map fun c => renderCell (c.cells.getD i .na)

/-- The caller's `df` object after `prepare_data_for_prediction(df)` has
run (flask_app.py line 117): on the no-`Class` path `features_df`
aliases `df`, so the coercion loop overwrites `df`'s non-numeric columns
in place; on the `Class` path the loop works on the dropped copy and
`df` is untouched.  This is the frame effect proved in
`prepare_effect_frame`; `results_df = df.copy()` at line 134 copies this
mutated frame, so the stored CSV is built from it. -/
def dfAfterPrepare (df : DataFrame) : DataFrame :=
  if df.columns.contains "Class" then df else coerce_loop df

/-- The `/predict` handler (flask_app.py lines 91–184) as a function of
the upload, the loaded model, the fresh token (`secrets.token_urlsafe`),
and the current `RESULTS_STORE`.  Checks happen in source order: file
part, filename, model availability, CSV parse, validation, prediction;
`calculate_risk_metrics` runs before the store insert (an exception there
is an unhandled 500), and the token is inserted only after the augmented
CSV bytes are built — from `dfAfterPrepare df`, the caller's frame as
mutated in place by `prepare_data_for_prediction`, which `df.copy()`
snapshots at line 134. -/
def predict (model? : Option Model) (upload : UploadField) (token : String)
    (store : Store) : PredictOutcome × Store :=
  match upload with
  | .missingPart => (.redirectAnalyze "No file part in request", store)
  | .emptyFilename => (.redirectAnalyze "No file selected", store)
  | .payload csv =>
    match model? with
    | none =>
        (.redirectAnalyze "Model not available. Please add a trained model file.",
          store)
    | some model =>
      match csv with
      | .error e => (.redirectAnalyze ("Failed to read CSV: " ++ e), store)
      | .ok df =>
        let v := validate_csv_data df
        if !v.1 then
          (.redirectAnalyze ("Data validation failed: " ++ v.2), store)
        else
          match model.predictFn (prepare_data_for_prediction df).1 with
          | .error e =>
              (.redirectAnalyze ("Model prediction failed: " ++ e), store)
          | .ok predictions =>
            let proba : Option (List ℚ) :=
              match model.predict_proba with
              | none => none
              | some f => f (prepare_data_for_prediction df).1
            match calculate_risk_metrics predictions proba with
            | .error e => (.serverError e, store)
            | .ok _metrics =>
                let results_df := dfAfterPrepare df
                let csv_bytes := encodeResultsCsv
                  (results_df.cols.map fun c => c.name.toList)
                  (rowsOfFrame results_df) predictions proba
                (.resultsPage token results_df.rowCount,
                  fun t => if t = token then some csv_bytes else store t)

/-- C10.  The request is atomic with respect to the token store: every
redirect (missing upload, no model, CSV parse failure, validation
failure, prediction failure) and every unhandled error leaves
`RESULTS_STORE` unchanged with no token issued; only the successful path
inserts a token, and it maps to the augmented CSV bytes built from the
caller's table as it stands after `prepare_data_for_prediction` has
coerced it in place (`dfAfterPrepare`). -/
theorem predict_store_atomicity (model? : Option Model)
    (upload : UploadField) (token : String) (store : Store) :
    (∀ msg, (predict model? upload token store).1 = .redirectAnalyze msg →
      (predict model? upload token store).2 = store) ∧
    (∀ msg, (predict model? upload token store).1 = .serverError msg →
      (predict model? upload token store).2 = store) ∧
    (∀ tok rc, (predict model? upload token store).1 = .resultsPage tok rc →
      tok = token ∧
      ∃ df predictions proba, upload = .payload (.ok df) ∧
        rc = (dfAfterPrepare df).rowCount ∧
        (predict model? upload token store).2 = fun t =>
          if t = token then
            some (encodeResultsCsv
              ((dfAfterPrepare df).cols.map fun c => c.name.toList)
              (rowsOfFrame (dfAfterPrepare df)) predictions proba)
          else store t) ∧
    (∀ e m, model? = some m → upload = .payload (.error e) →
      predict model? upload token store =
        (.redirectAnalyze ("Failed to read CSV: " ++ e), store)) ∧
    (∀ df m, model? = some m → upload = .payload (.ok df) →
      (validate_csv_data df).1 = false →
      predict model? upload token store =
        (.redirectAnalyze
          ("Data validation failed: " ++ (validate_csv_data df).2), store)) ∧
    (∀ df m e, model? = some m → upload = .payload (.ok df) →
      (validate_csv_data df).1 = true →
      m.predictFn (prepare_data_for_prediction df).1 = .error e →
      predict model? upload token store =
        (.redirectAnalyze ("Model prediction failed: " ++ e), store)) := by
  have key : ((predict model? upload token store).2 = store ∧
      ∀ tok rc, ¬ ((predict model? upload token store).1 =
        .resultsPage tok rc)) ∨
      (∃ df predictions proba, upload = .payload (.ok df) ∧
        (predict model? upload token store).1 =
          .resultsPage token (dfAfterPrepare df).rowCount ∧
        (predict model? upload token store).2 = fun t =>
          if t = token then
            some (encodeResultsCsv
              ((dfAfterPrepare df).cols.map fun c => c.name.toList)
              (rowsOfFrame (dfAfterPrepare df)) predictions proba)
          else store t) := by
    cases upload with
    | missingPart => exact Or.inl ⟨rfl, by simp [predict]⟩
    | emptyFilename => exact Or.inl ⟨rfl, by simp [predict]⟩
    | payload csv =>
        cases model? with
        | none => exact Or.inl ⟨rfl, by simp [predict]⟩
        | some m =>
            cases csv with
            | error e => exact Or.inl ⟨rfl, by simp [predict]⟩
            | ok df =>
                by_cases hval : (validate_csv_data df).1
                · cases hp : m.predictFn (prepare_data_for_prediction df).1 with
                  | error e =>
                      exact Or.inl ⟨by simp [predict, hval, hp],
                        by simp [predict, hval, hp]⟩
                  | ok predictions =>
                      cases hmet : calculate_risk_metrics predictions
                          (match m.predict_proba with
                           | none => none
                           | some f =>
                              f (prepare_data_for_prediction df).1) with
                      | error e =>
                          exact Or.inl ⟨by simp [predict, hval, hp, hmet],
                            by simp [predict, hval, hp, hmet]⟩
                      | ok met =>
                          refine Or.inr ⟨df, predictions,
                            (match m.predict_proba with
                             | none => none
                             | some f =>
                                f (prepare_data_for_prediction df).1), rfl,
                            by simp [predict, hval, hp, hmet],
                            by simp [predict, hval, hp, hmet]⟩
                · exact Or.inl ⟨by simp [predict, hval], by simp [predict, hval]⟩
  refine ⟨?_, ?_, ?_, ?_, ?_, ?_⟩
  · intro msg h
    rcases key with ⟨h2, _⟩ | ⟨df, predictions, proba, _, h1, _⟩
    · exact h2
    · rw [h1] at h
      exact absurd h (by simp)
  · intro msg h
    rcases key with ⟨h2, _⟩ | ⟨df, predictions, proba, _, h1, _⟩
    · exact h2
    · rw [h1] at h
      exact absurd h (by simp)
  · intro tok rc h
    rcases key with ⟨_, hno⟩ | ⟨df, predictions, proba, hu, h1, h2⟩
    · exact absurd h (hno tok rc)
    · rw [h1] at h
      have htok : tok = token ∧ rc = (dfAfterPrepare df).rowCount := by
        constructor <;> [exact (PredictOutcome.resultsPage.injEq ..).mp
          h.symm |>.1; exact (PredictOutcome.resultsPage.injEq ..).mp
          h.symm |>.2]
      exact ⟨htok.1, df, predictions, proba, hu, htok.2, h2⟩
  · intro e m hm hu
    subst hm
    subst hu
    simp [predict]
  · intro df m hm hu hval
    subst hm
    subst hu
    simp [predict, hval]
  · intro df m e hm hu hval hp
    subst hm
    subst hu
    simp [predict, hval, hp]

/-- Witness for `predict_store_atomicity`: a request with no file part
leaves the empty store unchanged. -/
theorem predict_store_atomicity_witness :
    (predict none .missingPart "t" (fun _ => none)).2 =
      (fun _ => none : Store) :=
  (predict_store_atomicity none .missingPart "t" (fun _ => none)).1
    "No file part in request" rfl

end FraudShield
